import Mathlib

/-!
Verification of `imectools` (directory-maintenance utility).

Shallow embedding of `src/imectools/cli.py` (the `clean` orchestrator, the
`clean_many` fleet dispatcher and its `_try_clean` wrapper).  The helper
module `imectools/_cleanup.py` (`iter_old_files`, `iter_empty_dirs`) and
`imectools/remote.py` (`mount_smb`) are not part of the provided sources;
the definitions for them below are modelled from the specification and say
so in their doc comments.

Strings are modelled as `List Char` so that Python's `split`, `in`
(substring) and slicing operations can be given exact, inductively
analysable counterparts.  Fractional day counts and file ages use `ℚ`.
-/

namespace Imectools

/-- Python strings, modelled as lists of characters. -/
abbrev Str := List Char

/-- Python `haystack.startswith(needle)` restricted to what we need:
`preOf n h = true` iff `n` is a prefix of `h`. -/
def preOf : Str → Str → Bool
  | [], _ => true
  | _ :: _, [] => false
  | a :: as, b :: bs => a = b && preOf as bs

/-- Python `needle in haystack` (substring containment, case-sensitive,
literal). -/
def subOf (n : Str) : Str → Bool
  | [] => preOf n []
  | b :: bs => preOf n (b :: bs) || subOf n bs

theorem preOf_iff (n h : Str) : preOf n h = true ↔ n <+: h := by
  induction n generalizing h with
  | nil => simp [preOf]
  | cons a as ih =>
    cases h with
    | nil => simp [preOf]
    | cons b bs => simp [preOf, List.cons_prefix_cons, ih]

theorem subOf_iff (n h : Str) : subOf n h = true ↔ n <:+: h := by
  induction h with
  | nil =>
    cases n <;> simp [subOf, preOf]
  | cons b bs ih =>
    rw [subOf]
    simp only [Bool.or_eq_true, preOf_iff, ih, List.infix_cons_iff]

/-- Python `s.split(c)` for a one-character separator: never returns the
empty list, `"".split(c) == ['']`. -/
def splitOnChar (c : Char) : Str → List Str
  | [] => [[]]
  | x :: xs =>
    let r := splitOnChar c xs
    if x = c then [] :: r
    else
      match r with
      | [] => [[x]]
      | y :: ys => (x :: y) :: ys

theorem splitOnChar_ne_nil (c : Char) (l : Str) : splitOnChar c l ≠ [] := by
  induction l with
  | nil => simp [splitOnChar]
  | cons x xs ih =>
    rw [splitOnChar]
    by_cases hx : x = c
    · simp [hx]
    · simp only [if_neg hx]
      cases h : splitOnChar c xs with
      | nil => simp
      | cons y ys => simp

theorem length_splitOnChar (c : Char) (l : Str) :
    (splitOnChar c l).length = l.count c + 1 := by
  induction l with
  | nil => simp [splitOnChar]
  | cons x xs ih =>
    rw [splitOnChar]
    by_cases hx : x = c
    · simp [hx, List.count_cons, ih]
    · simp only [if_neg hx]
      cases h : splitOnChar c xs with
      | nil => exact absurd h (splitOnChar_ne_nil c xs)
      | cons y ys =>
        have : ys.length + 1 = xs.count c + 1 := by
          simpa [h] using ih
        simp [List.count_cons, hx, this]

/-- `"smb://"` as a character list. -/
def smbPre : Str := "smb://".toList

/-- The authority-and-path part of an smb address: `directory[6:].split("/")`
(cli.py line 89). -/
def smbParts (directory : Str) : List Str := splitOnChar '/' (directory.drop 6)

/-- `server` before `@`-splitting: the head of `directory[6:].split("/")`
(cli.py line 89; the split is never empty, so `headD` never falls back). -/
def smbServer0 (directory : Str) : Str := (smbParts directory).headD []

/-- `share = rest[0] if rest else "data"` (cli.py line 90). -/
def smbShare (directory : Str) : Str :=
  match (smbParts directory).tail with
  | [] => "data".toList
  | r :: _ => r

/-- Outcome of resolving the user/server/share from an smb address
(cli.py lines 89–95). `invalidUser` is the explicit
`ValueError("Usernames with ':' are not supported")`; `unpackError` is the
ValueError Python raises from `user, server = server.split("@")` when the
split does not have exactly two parts. -/
inductive SmbResolve where
  | ok (server share user : Str)
  | invalidUser
  | unpackError
deriving DecidableEq

/-- cli.py lines 89–95: split off the share, default user `"Admin"`,
split `user@server` on `@` when present, reject users containing `:`. -/
def resolveSmb (directory : Str) : SmbResolve :=
  let server0 := smbServer0 directory
  let share := smbShare directory
  if '@' ∈ server0 then
    match splitOnChar '@' server0 with
    | [u, s] => if ':' ∈ u then .invalidUser else .ok s share u
    | _ => .unpackError
  else if ':' ∈ ("Admin".toList : Str) then .invalidUser
  else .ok server0 share ("Admin".toList)

/-! ## Filesystem and environment model -/

/-- One regular file on disk.  `mtime` is its last-modified time in days on
the same clock as `Env.now`; `unlinkOk` is the oracle for whether a
`Path.unlink()` call on it succeeds (cli.py line 146 catches any failure). -/
structure FileEnt where
  path : Str
  mtime : ℚ
  unlinkOk : Bool
deriving DecidableEq

/-- One directory on disk, with the oracle for whether `Path.rmdir()` on it
succeeds (cli.py line 157). -/
structure DirEnt where
  path : Str
  rmdirOk : Bool
deriving DecidableEq

/-- On-disk state under the scanned root: the files and directories the run
can see and delete. -/
structure FS where
  files : List FileEnt
  dirs : List DirEnt
deriving DecidableEq

def removeFile (fs : FS) (f : FileEnt) : FS := ⟨fs.files.erase f, fs.dirs⟩

def removeDir (fs : FS) (d : DirEnt) : FS := ⟨fs.files, fs.dirs.erase d⟩

/-- Error kinds that the classifier/reaper traversals can raise
(spec §4.1: `NotFoundError`, reported `PermissionError`, …). -/
inductive Err where
  | notFound
  | permission
  | other
deriving DecidableEq

/-- The ambient facts a single `clean` run consults: the clock, the on-disk
state, how local-path resolution answers (`Path.exists` / `Path.is_dir`),
whether remote mount acquisition (`mount_smb(...).__enter__()`) succeeds and
which local path it yields, error injection for the classifier and reaper
traversals, and the interactive answer to `typer.confirm`. -/
structure Env where
  now : ℚ
  fs : FS
  localExists : Bool
  localIsDir : Bool
  mountOk : Bool
  mountPath : Str
  scanErr : Option Err
  reapErr : Option Err
  confirmYes : Bool
deriving DecidableEq

/-- Modelled from the spec: `iter_old_files` lives in
`imectools/_cleanup.py`, which is not among the provided sources.  Per
§4.1 the Age Classifier visits every regular file under the root (here:
the `files` list) and yields the file with its age when
`(now − file.modifiedTime) > thresholdDays` and the full path does not
contain the exclusion token (case-sensitive literal substring). -/
def iter_old_files (files : List FileEnt) (now days : ℚ) (skip : Str) :
    List (FileEnt × ℚ) :=
  files.filterMap fun f =>
    let age := now - f.mtime
    if days < age ∧ subOf skip f.path = false then some (f, age) else none

/-- `p` is a proper ancestor-path of `q` in the flat path model: an entry
of directory `p` is anything whose path strictly extends `p`. -/
def isEntryOf (p q : Str) : Bool := preOf p q && decide (p ≠ q)

/-- A directory currently has zero entries (no file and no other directory
below it). -/
def dirEmpty (fs : FS) (d : DirEnt) : Bool :=
  !(fs.files.any fun f => isEntryOf d.path f.path) &&
  !(fs.dirs.any fun d2 => isEntryOf d.path d2.path)

def insertByDepth (d : DirEnt) : List DirEnt → List DirEnt
  | [] => [d]
  | e :: es =>
    if e.path.length ≤ d.path.length then d :: e :: es
    else e :: insertByDepth d es

/-- Deepest-path-first ordering of the directory list (the Reaper's
bottom-up traversal order, spec §4.2). -/
def byDepth (l : List DirEnt) : List DirEnt := l.foldr insertByDepth []

/-! ## Observable events and run outcomes -/

/-- Observable actions of one `clean` run, in program order: mount calls,
the classifier invocation, the printed error/report lines, the confirmation
prompt, and each deletion attempt. -/
inductive Event where
  | mountAttempt
  | mountAcquire
  | mountRelease
  | scan
  | errNotFound
  | errNotADirectory
  | noCandidates
  | wouldDelete (p : Str) (age : ℚ)
  | prompt (n : Nat)
  | deleted (p : Str)
  | deleteFailed (p : Str)
  | dirDeleted (p : Str)
  | dirDeleteFailed (p : Str)
  | summaryDeleted (n : Nat)
  | summaryFailed (n : Nat)
deriving DecidableEq

/-- How a `clean` run terminates.  In the source every path terminates by
raising: `typer.Exit(code)` (`exited`), `typer.Abort` from the declined
confirmation (`aborted`), the explicit `ValueError` for a `:` in the user
name (`invalidUsername`), the `ValueError` Python raises when
`server.split("@")` does not unpack into two names (`unpackError`), an
exception out of mount acquisition (`mountError`), or an exception raised
by a classifier/reaper traversal (`raisedErr`). -/
inductive RunExit where
  | exited (code : Nat)
  | aborted
  | invalidUsername
  | unpackError
  | mountError
  | raisedErr (e : Err)
deriving DecidableEq

/-- Result of the delete loop, cli.py lines 141–151: the `count`/`errs`
counters as the loop leaves them, the remaining filesystem, and the
per-file report lines. -/
structure DelResult where
  count : Nat
  errs : Nat
  fs : FS
  events : List Event
deriving DecidableEq

/-- cli.py lines 141–151.  Faithful to the source: `count = 0` and
`errs = 0` execute at the top of every loop iteration, so after the loop
the counters describe only the last candidate.  (On an empty candidate
list the source would leave them unbound; that case is unreachable because
the no-candidates exit at line 121 fires first.) -/
def deleteFiles : List (FileEnt × ℚ) → FS → DelResult
  | [], fs => ⟨0, 0, fs, []⟩
  | fa :: rest, fs =>
    let step : Nat × Nat × FS × List Event :=
      if fa.1.unlinkOk then (1, 0, removeFile fs fa.1, [Event.deleted fa.1.path])
      else (0, 1, fs, [Event.deleteFailed fa.1.path])
    match rest with
    | [] => ⟨step.1, step.2.1, step.2.2.1, step.2.2.2⟩
    | r :: rs =>
      let tail := deleteFiles (r :: rs) step.2.2.1
      ⟨tail.count, tail.errs, tail.fs, step.2.2.2 ++ tail.events⟩

/-- Modelled from the spec: the Reaper's generator `iter_empty_dirs` lives
in `imectools/_cleanup.py`, which is not among the provided sources.  Per
§4.2 it traverses bottom-up and yields a directory when it currently has
zero entries, its path does not contain the exclusion token, and it is not
the root itself; the caller (cli.py lines 155–164) removes each yielded
directory, catching and reporting individual failures.  Emptiness is
evaluated against the current state, so removing a directory can make its
parent eligible later in the same pass. -/
def reapLoop (root skip : Str) : List DirEnt → FS → FS × List Event
  | [], fs => (fs, [])
  | d :: rest, fs =>
    if d.path = root ∨ subOf skip d.path = true ∨ dirEmpty fs d = false then
      reapLoop root skip rest fs
    else if d.rmdirOk then
      let r := reapLoop root skip rest (removeDir fs d)
      (r.1, Event.dirDeleted d.path :: r.2)
    else
      let r := reapLoop root skip rest fs
      (r.1, Event.dirDeleteFailed d.path :: r.2)

def reapDirs (root skip : Str) (fs : FS) : FS × List Event :=
  reapLoop root skip (byDepth fs.dirs) fs

/-- Result of the body of `clean`'s `try:` block. -/
structure BodyResult where
  exit : RunExit
  fs : FS
  events : List Event
deriving DecidableEq

/-- cli.py lines 166–173: the closing separator, the summary lines guarded
by `if count:` / `if errs:`, and `raise typer.Exit(1 if errs else 0)`. -/
def report (count errs : Nat) (fs : FS) (evs : List Event) : BodyResult :=
  ⟨.exited (if errs ≠ 0 then 1 else 0), fs,
    evs ++ (if count ≠ 0 then [Event.summaryDeleted count] else []) ++
      (if errs ≠ 0 then [Event.summaryFailed errs] else [])⟩

/-- cli.py lines 110–173, the body of the `try:` block: scan, the
no-candidates exit, the dry-run exit, the confirmation prompt, the delete
loop, the reap loop, and the summary. -/
def cleanBody (root : Str) (days : ℚ) (dry_run force delete_empty_dirs : Bool)
    (skip : Str) (env : Env) : BodyResult :=
  match env.scanErr with
  | some e => ⟨.raisedErr e, env.fs, [.scan]⟩
  | none =>
    let old_files := iter_old_files env.fs.files env.now days skip
    if old_files.isEmpty then ⟨.exited 0, env.fs, [.scan, .noCandidates]⟩
    else if dry_run then
      ⟨.exited 0, env.fs,
        [Event.scan] ++ old_files.map fun fa => Event.wouldDelete fa.1.path fa.2⟩
    else
      let promptEvs : List Event :=
        if force then [] else [.prompt old_files.length]
      if force = false ∧ env.confirmYes = false then
        ⟨.aborted, env.fs, [Event.scan] ++ promptEvs⟩
      else
        let del := deleteFiles old_files env.fs
        if delete_empty_dirs then
          match env.reapErr with
          | some e =>
            ⟨.raisedErr e, del.fs, [Event.scan] ++ promptEvs ++ del.events⟩
          | none =>
            let reaped := reapDirs root skip del.fs
            report del.count del.errs reaped.1
              ([Event.scan] ++ promptEvs ++ del.events ++ reaped.2)
        else
          report del.count del.errs del.fs
            ([Event.scan] ++ promptEvs ++ del.events)

/-- Result of one whole `clean` run. -/
structure RunResult where
  exit : RunExit
  fs : FS
  events : List Event
deriving DecidableEq

/-- cli.py lines 83–176, the `clean` command.  For an `smb://` target the
address is resolved (lines 86–95), `mount_smb(...).__enter__()` is
attempted (lines 97–98), and — only when the `try:` block was entered —
`context.__exit__` runs in the `finally:` (lines 174–176).  A failure of
acquisition itself happens before the `try:`, so nothing is released.  For
a local target the path is resolved and checked (lines 100–107); both
failure reports terminate with `typer.Exit(0)` before any scan. -/
def clean (directory : Str) (days : ℚ) (dry_run force delete_empty_dirs : Bool)
    (skip : Str) (env : Env) : RunResult :=
  if preOf smbPre directory = true then
    match resolveSmb directory with
    | .invalidUser => ⟨.invalidUsername, env.fs, []⟩
    | .unpackError => ⟨.unpackError, env.fs, []⟩
    | .ok _ _ _ =>
      if env.mountOk then
        let b := cleanBody env.mountPath days dry_run force delete_empty_dirs skip env
        ⟨b.exit, b.fs, [Event.mountAttempt, Event.mountAcquire] ++ b.events ++
          [Event.mountRelease]⟩
      else ⟨.mountError, env.fs, [.mountAttempt]⟩
  else
    if env.localIsDir then
      let b := cleanBody directory days dry_run force delete_empty_dirs skip env
      ⟨b.exit, b.fs, b.events⟩
    else if env.localExists then ⟨.exited 0, env.fs, [.errNotADirectory]⟩
    else ⟨.exited 0, env.fs, [.errNotFound]⟩

/-! ## Fleet dispatcher -/

/-- Outcome of `_try_clean` for one target: the wrapped run's exception was
swallowed silently (`typer.Exit` with code 0), or reported with the target
string `args[0]`, or would have escaped the `except Exception` clause. -/
inductive DispatchOutcome where
  | silent
  | reported (target : Str)
  | propagated
deriving DecidableEq

/-- cli.py lines 218–225, `_try_clean`: every termination of `clean` is a
raised `Exception` (Typer's `Exit` and `Abort` both derive from
`RuntimeError`), so `except Exception` catches all of them; an `Exit` with
`exit_code == 0` returns silently, anything else is reported with
`args[0]`, the target address string. -/
def try_clean (directory : Str) (days : ℚ)
    (dry_run force delete_empty_dirs : Bool) (skip : Str) (env : Env) :
    DispatchOutcome :=
  match (clean directory days dry_run force delete_empty_dirs skip env).exit with
  | .exited 0 => .silent
  | _ => .reported directory

/-- cli.py lines 210–214: the per-station argument tuples —
`(f"smb://{ip}/data", 60, False, force, True, "delete")` for every manifest
entry whose address is not null; station names (the keys) are discarded. -/
def clean_many_targets (manifest : List (Str × Option Str)) : List Str :=
  manifest.filterMap fun e =>
    e.2.map fun ip => "smb://".toList ++ ip ++ "/data".toList

/-- cli.py lines 209–215: `pool.map(_try_clean, args)` — each target's run
is independent; `envs` supplies the per-target world. -/
def clean_many (manifest : List (Str × Option Str)) (force : Bool)
    (envs : Str → Env) : List DispatchOutcome :=
  (clean_many_targets manifest).map fun t =>
    try_clean t 60 false force true ("delete".toList) (envs t)

/-! ## Helper lemmas -/

/-- Events emitted by the item-deletion loops (file unlink and directory
rmdir attempts). -/
def isDeletionEvent : Event → Bool
  | .deleted _ => true
  | .deleteFailed _ => true
  | .dirDeleted _ => true
  | .dirDeleteFailed _ => true
  | _ => false

def isMountEvent : Event → Bool
  | .mountAttempt => true
  | .mountAcquire => true
  | .mountRelease => true
  | _ => false

theorem isMountEvent_eq_false_of_deletion {e : Event}
    (h : isDeletionEvent e = true) : isMountEvent e = false := by
  cases e <;> simp_all [isDeletionEvent, isMountEvent]

theorem deleteFiles_events_deletion (c : List (FileEnt × ℚ)) (fs : FS) :
    ∀ e ∈ (deleteFiles c fs).events, isDeletionEvent e = true := by
  induction c generalizing fs with
  | nil => simp [deleteFiles]
  | cons fa rest ih =>
    cases rest with
    | nil =>
      intro e he
      by_cases hu : fa.1.unlinkOk <;>
        simp [deleteFiles, hu] at he <;> simp [he, isDeletionEvent]
    | cons r rs =>
      intro e he
      by_cases hu : fa.1.unlinkOk <;> simp [deleteFiles, hu] at he <;>
        rcases he with he | he <;>
        first
          | exact ih _ e he
          | simp [he, isDeletionEvent]

theorem reapLoop_events_deletion (root skip : Str) (l : List DirEnt) (fs : FS) :
    ∀ e ∈ (reapLoop root skip l fs).2, isDeletionEvent e = true := by
  induction l generalizing fs with
  | nil => simp [reapLoop]
  | cons d rest ih =>
    intro e he
    by_cases h1 : d.path = root ∨ subOf skip d.path = true ∨ dirEmpty fs d = false
    · rw [reapLoop, if_pos h1] at he
      exact ih fs e he
    · rw [reapLoop, if_neg h1] at he
      by_cases h2 : d.rmdirOk
      · simp only [if_pos h2] at he
        simp at he
        rcases he with he | he
        · simp [he, isDeletionEvent]
        · exact ih _ e he
      · simp only [if_neg h2] at he
        simp at he
        rcases he with he | he
        · simp [he, isDeletionEvent]
        · exact ih _ e he

theorem cleanBody_no_mount (root : Str) (days : ℚ) (dr fo ded : Bool)
    (skip : Str) (env : Env) :
    ∀ e ∈ (cleanBody root days dr fo ded skip env).events,
      isMountEvent e = false := by
  intro e he
  have hdel : ∀ (c : List (FileEnt × ℚ)) (fs : FS),
      e ∈ (deleteFiles c fs).events → isMountEvent e = false := fun c fs h =>
    isMountEvent_eq_false_of_deletion (deleteFiles_events_deletion c fs e h)
  have hreap : ∀ (rt sk : Str) (l : List DirEnt) (fs : FS),
      e ∈ (reapLoop rt sk l fs).2 → isMountEvent e = false := fun a b c d h =>
    isMountEvent_eq_false_of_deletion (reapLoop_events_deletion a b c d e h)
  simp only [cleanBody, report, reapDirs] at he
  repeat any_goals split at he
  all_goals
    try simp only [List.mem_append, List.mem_cons, List.mem_map,
      List.mem_singleton, List.not_mem_nil, or_false, false_or] at he
  all_goals try casesm* _ ∨ _, _ ∧ _, Exists _
  all_goals try subst_vars
  all_goals
    first
      | exact hdel _ _ (by assumption)
      | exact hreap _ _ _ _ (by assumption)
      | simp_all [isMountEvent]

theorem cleanBody_count_mount (root : Str) (days : ℚ) (dr fo ded : Bool)
    (skip : Str) (env : Env) (e : Event) (hm : isMountEvent e = true) :
    (cleanBody root days dr fo ded skip env).events.count e = 0 := by
  rw [List.count_eq_zero]
  intro hmem
  have h := cleanBody_no_mount root days dr fo ded skip env e hmem
  simp [h] at hm

theorem cleanBody_dry_fs (root : Str) (days : ℚ) (fo ded : Bool)
    (skip : Str) (env : Env) :
    (cleanBody root days true fo ded skip env).fs = env.fs := by
  cases hs : env.scanErr <;> simp only [cleanBody, hs]
  split <;> rfl

theorem cleanBody_dry_noDeletion (root : Str) (days : ℚ) (fo ded : Bool)
    (skip : Str) (env : Env) :
    ∀ e ∈ (cleanBody root days true fo ded skip env).events,
      isDeletionEvent e = false := by
  intro e he
  cases hs : env.scanErr <;> simp only [cleanBody, hs] at he
  · split at he
    · simp at he
      rcases he with he | he <;> simp [he, isDeletionEvent]
    · simp at he
      rcases he with he | ⟨a, b, _, hab⟩
      · simp [he, isDeletionEvent]
      · simp [← hab, isDeletionEvent]
  · simp at he
    simp [he, isDeletionEvent]

theorem cleanBody_dry_run_eq (root : Str) (days : ℚ) (fo ded : Bool)
    (skip : Str) (env : Env) (h1 : env.scanErr = none)
    (h2 : iter_old_files env.fs.files env.now days skip ≠ []) :
    cleanBody root days true fo ded skip env =
      ⟨.exited 0, env.fs,
        Event.scan :: (iter_old_files env.fs.files env.now days skip).map
          fun fa => Event.wouldDelete fa.1.path fa.2⟩ := by
  simp [cleanBody, h1, h2]

def SmbResolve.isOk : SmbResolve → Bool
  | .ok _ _ _ => true
  | _ => false

theorem atMem_of_split_pair {d u s : Str}
    (h : splitOnChar '@' d = [u, s]) : '@' ∈ d := by
  have hl := length_splitOnChar '@' d
  rw [h] at hl
  by_contra hmem
  rw [List.count_eq_zero.mpr hmem] at hl
  simp at hl

theorem atMem_of_two_le_count {d : Str} (h : 2 ≤ d.count '@') : '@' ∈ d := by
  by_contra hmem
  rw [List.count_eq_zero.mpr hmem] at h
  omega

theorem iter_old_files_map_fst (files : List FileEnt) (now days : ℚ)
    (skip : Str) :
    (iter_old_files files now days skip).map Prod.fst =
      files.filter fun f =>
        decide (days < now - f.mtime ∧ subOf skip f.path = false) := by
  induction files with
  | nil => rfl
  | cons f fs ih =>
    simp only [iter_old_files] at ih ⊢
    by_cases hq : days < now - f.mtime ∧ subOf skip f.path = false <;>
      simp [List.filterMap_cons, List.filter_cons, hq, ih]

/-! ## Claims -/

/-- C4: every file visited exactly once by the scan whose modification age
is strictly greater than the threshold and whose full path does not contain
the exclusion token appears exactly once in the Age Classifier's result;
a file whose age is at or below the threshold, or whose path contains the
token, never appears. -/
theorem C4_age_classifier (files : List FileEnt) (now days : ℚ) (skip : Str)
    (f : FileEnt) :
    (files.count f = 1 → days < now - f.mtime → subOf skip f.path = false →
      ((iter_old_files files now days skip).map Prod.fst).count f = 1)
    ∧ (f ∈ files → (¬ days < now - f.mtime ∨ subOf skip f.path = true) →
      ((iter_old_files files now days skip).map Prod.fst).count f = 0) := by
  constructor
  · intro h1 h2 h3
    rw [iter_old_files_map_fst, List.count_filter (by simp [h2, h3]), h1]
  · intro hmem hbad
    rw [iter_old_files_map_fst, List.count_eq_zero]
    intro hf
    rw [List.mem_filter] at hf
    have hq := hf.2
    simp only [decide_eq_true_eq] at hq
    rcases hbad with hb | hb
    · exact hb hq.1
    · rw [hq.2] at hb
      exact Bool.false_ne_true hb

theorem C4_age_classifier_witness :
    ((([⟨"/r/old.tif".toList, (0 : ℚ), true⟩] : List FileEnt).count
        ⟨"/r/old.tif".toList, (0 : ℚ), true⟩ = 1)
      ∧ ((60 : ℚ) < 100 - 0)
      ∧ subOf ("delete".toList) ("/r/old.tif".toList) = false
      ∧ ((iter_old_files [⟨"/r/old.tif".toList, (0 : ℚ), true⟩] 100 60
            ("delete".toList)).map Prod.fst).count
          ⟨"/r/old.tif".toList, (0 : ℚ), true⟩ = 1)
    ∧ ((⟨"/r/new.tif".toList, (90 : ℚ), true⟩ : FileEnt) ∈
        [(⟨"/r/new.tif".toList, (90 : ℚ), true⟩ : FileEnt)]
      ∧ ((iter_old_files [⟨"/r/new.tif".toList, (90 : ℚ), true⟩] 100 60
            ("delete".toList)).map Prod.fst).count
          ⟨"/r/new.tif".toList, (90 : ℚ), true⟩ = 0) :=
  ⟨⟨by decide, by norm_num, by decide,
      (C4_age_classifier _ 100 60 _ _).1 (by decide) (by norm_num) (by decide)⟩,
    ⟨by decide,
      (C4_age_classifier _ 100 60 _ _).2 (by decide) (Or.inl (by norm_num))⟩⟩

/-- C8: `smb://Admin@10.0.0.5/data` parses to user `Admin`, host
`10.0.0.5`, share `data`; an smb address with no share segment gets the
fixed default share `data`; an smb address with no user segment gets the
fixed administrative default user `Admin`. -/
theorem C8_smb_address_parsing :
    resolveSmb ("smb://Admin@10.0.0.5/data".toList) =
      SmbResolve.ok ("10.0.0.5".toList) ("data".toList) ("Admin".toList)
    ∧ (∀ d : Str, (smbParts d).tail = [] → smbShare d = "data".toList)
    ∧ (∀ d : Str, '@' ∉ smbServer0 d →
        resolveSmb d =
          SmbResolve.ok (smbServer0 d) (smbShare d) ("Admin".toList)) := by
  refine ⟨by decide, ?_, ?_⟩
  · intro d h
    simp [smbShare, h]
  · intro d h
    simp [resolveSmb, h]

theorem C8_smb_address_parsing_witness :
    ((smbParts ("smb://10.1.1.1".toList)).tail = []
      ∧ smbShare ("smb://10.1.1.1".toList) = "data".toList)
    ∧ ('@' ∉ smbServer0 ("smb://10.1.1.1/share".toList)
      ∧ resolveSmb ("smb://10.1.1.1/share".toList) =
          SmbResolve.ok (smbServer0 ("smb://10.1.1.1/share".toList))
            (smbShare ("smb://10.1.1.1/share".toList)) ("Admin".toList)) :=
  ⟨⟨by decide, C8_smb_address_parsing.2.1 _ (by decide)⟩,
    ⟨by decide, C8_smb_address_parsing.2.2 _ (by decide)⟩⟩

/-- C9: an smb target whose user segment (the part before the `@`)
contains a `:` makes the run fail with the invalid-username error before
any mount is attempted. -/
theorem C9_colon_username_rejected (d : Str) (days : ℚ) (dr fo ded : Bool)
    (skip : Str) (env : Env) (u s : Str)
    (hsmb : preOf smbPre d = true)
    (hsplit : splitOnChar '@' (smbServer0 d) = [u, s])
    (hc : ':' ∈ u) :
    clean d days dr fo ded skip env = ⟨.invalidUsername, env.fs, []⟩ ∧
    Event.mountAttempt ∉ (clean d days dr fo ded skip env).events := by
  have hmem : '@' ∈ smbServer0 d := atMem_of_split_pair hsplit
  have hres : resolveSmb d = .invalidUser := by
    simp [resolveSmb, hmem, hsplit, hc]
  constructor
  · simp [clean, hsmb, hres]
  · simp [clean, hsmb, hres]

theorem C9_colon_username_rejected_witness :
    (preOf smbPre ("smb://a:b@h/s".toList) = true
      ∧ splitOnChar '@' (smbServer0 ("smb://a:b@h/s".toList)) =
          ["a:b".toList, "h".toList]
      ∧ ':' ∈ ("a:b".toList : Str))
    ∧ clean ("smb://a:b@h/s".toList) 60 false false true ("delete".toList)
        ⟨0, ⟨[], []⟩, true, true, true, [], none, none, true⟩ =
      ⟨.invalidUsername, FS.mk [] [], []⟩ :=
  ⟨⟨by decide, by decide, by decide⟩,
    (C9_colon_username_rejected ("smb://a:b@h/s".toList) 60 false false true
      ("delete".toList) ⟨0, ⟨[], []⟩, true, true, true, [], none, none, true⟩
      ("a:b".toList) ("h".toList) (by decide) (by decide) (by decide)).1⟩

/-- C10: an smb target whose authority segment contains two or more `@`
characters makes address resolution fail with the tuple-unpacking error
(not the invalid-username error reserved for malformed addresses), before
any mount is attempted. -/
theorem C10_multi_at_unpack_error (d : Str) (days : ℚ) (dr fo ded : Bool)
    (skip : Str) (env : Env)
    (hsmb : preOf smbPre d = true)
    (h2 : 2 ≤ (smbServer0 d).count '@') :
    clean d days dr fo ded skip env = ⟨.unpackError, env.fs, []⟩ ∧
    (clean d days dr fo ded skip env).exit ≠ RunExit.invalidUsername ∧
    Event.mountAttempt ∉ (clean d days dr fo ded skip env).events := by
  have hmem : '@' ∈ smbServer0 d := atMem_of_two_le_count h2
  have hlen : 3 ≤ (splitOnChar '@' (smbServer0 d)).length := by
    rw [length_splitOnChar]
    omega
  have hres : resolveSmb d = .unpackError := by
    cases hsp : splitOnChar '@' (smbServer0 d) with
    | nil => exact absurd hsp (splitOnChar_ne_nil _ _)
    | cons a l1 =>
      cases l1 with
      | nil =>
        rw [hsp] at hlen
        simp at hlen
      | cons b l2 =>
        cases l2 with
        | nil =>
          rw [hsp] at hlen
          simp at hlen
        | cons c t => simp [resolveSmb, hmem, hsp]
  refine ⟨?_, ?_, ?_⟩ <;> simp [clean, hsmb, hres]

theorem C10_multi_at_unpack_error_witness :
    (preOf smbPre ("smb://a@b@h/s".toList) = true
      ∧ 2 ≤ (smbServer0 ("smb://a@b@h/s".toList)).count '@')
    ∧ clean ("smb://a@b@h/s".toList) 60 false false true ("delete".toList)
        ⟨0, ⟨[], []⟩, true, true, true, [], none, none, true⟩ =
      ⟨.unpackError, FS.mk [] [], []⟩ :=
  ⟨⟨by decide, by decide⟩,
    (C10_multi_at_unpack_error _ 60 false false true _ _
      (by decide) (by decide)).1⟩

/-- C3: for a local (non-smb) target, a resolved path that does not exist
fails with the not-found error report and a path that exists but is not a
directory fails with the not-a-directory (invalid argument) report; both
abort the run before any scan.  (The source realises both error kinds as a
distinct red message followed by `typer.Exit(0)`, cli.py lines 102–107.) -/
theorem C3_local_resolution_errors (d : Str) (days : ℚ) (dr fo ded : Bool)
    (skip : Str) (env : Env) (hloc : preOf smbPre d = false) :
    (env.localIsDir = false → env.localExists = false →
      clean d days dr fo ded skip env = ⟨.exited 0, env.fs, [.errNotFound]⟩ ∧
      Event.scan ∉ (clean d days dr fo ded skip env).events)
    ∧ (env.localIsDir = false → env.localExists = true →
      clean d days dr fo ded skip env =
        ⟨.exited 0, env.fs, [.errNotADirectory]⟩ ∧
      Event.scan ∉ (clean d days dr fo ded skip env).events) := by
  constructor <;> intro h1 h2 <;> constructor <;> simp [clean, hloc, h1, h2]

theorem C3_local_resolution_errors_witness :
    (preOf smbPre ("/nope".toList) = false
      ∧ clean ("/nope".toList) 60 false false true ("delete".toList)
          ⟨0, ⟨[], []⟩, false, false, false, [], none, none, true⟩ =
        ⟨.exited 0, FS.mk [] [], [.errNotFound]⟩)
    ∧ (preOf smbPre ("/a/file.txt".toList) = false
      ∧ clean ("/a/file.txt".toList) 60 false false true ("delete".toList)
          ⟨0, ⟨[], []⟩, true, false, false, [], none, none, true⟩ =
        ⟨.exited 0, FS.mk [] [], [.errNotADirectory]⟩) :=
  ⟨⟨by decide,
      ((C3_local_resolution_errors ("/nope".toList) 60 false false true
        ("delete".toList) ⟨0, ⟨[], []⟩, false, false, false, [], none, none, true⟩
        (by decide)).1 rfl rfl).1⟩,
    ⟨by decide,
      ((C3_local_resolution_errors ("/a/file.txt".toList) 60 false false true
        ("delete".toList) ⟨0, ⟨[], []⟩, true, false, false, [], none, none, true⟩
        (by decide)).2 rfl rfl).1⟩⟩

/-- C2: on a remote (smb) target whose address resolves, if mount
acquisition succeeds the mount is released exactly once whatever the body
of the run does (normal completion, no-candidates exit, dry-run exit, or
an error during scan, delete or reap — the environment quantifies over all
of them); if acquisition fails, the run ends with the mount error, nothing
was scanned, and no teardown is attempted. -/
theorem C2_mount_scope (d : Str) (days : ℚ) (dr fo ded : Bool) (skip : Str)
    (env : Env) (hsmb : preOf smbPre d = true)
    (hok : (resolveSmb d).isOk = true) :
    (env.mountOk = true →
      (clean d days dr fo ded skip env).events.count Event.mountRelease = 1 ∧
      (clean d days dr fo ded skip env).events.count Event.mountAcquire = 1)
    ∧ (env.mountOk = false →
      (clean d days dr fo ded skip env).exit = RunExit.mountError ∧
      (clean d days dr fo ded skip env).events = [Event.mountAttempt] ∧
      (clean d days dr fo ded skip env).fs = env.fs) := by
  rcases hres : resolveSmb d with ⟨s, sh, u⟩ | _ | _
  · constructor
    · intro hm
      have hrel := cleanBody_count_mount env.mountPath days dr fo ded skip env
        Event.mountRelease (by simp [isMountEvent])
      have hacq := cleanBody_count_mount env.mountPath days dr fo ded skip env
        Event.mountAcquire (by simp [isMountEvent])
      constructor <;>
        simp [clean, hsmb, hres, hm, List.count_cons, List.count_append,
          hrel, hacq]
    · intro hm
      refine ⟨?_, ?_, ?_⟩ <;> simp [clean, hsmb, hres, hm]
  · rw [hres] at hok
    simp [SmbResolve.isOk] at hok
  · rw [hres] at hok
    simp [SmbResolve.isOk] at hok

theorem C2_mount_scope_witness :
    (preOf smbPre ("smb://10.0.0.5/data".toList) = true
      ∧ (resolveSmb ("smb://10.0.0.5/data".toList)).isOk = true)
    ∧ (clean ("smb://10.0.0.5/data".toList) 60 false false true
        ("delete".toList)
        ⟨0, ⟨[], []⟩, true, true, true, "/mnt/s".toList, none, none,
          true⟩).events.count Event.mountRelease = 1
    ∧ (clean ("smb://10.0.0.5/data".toList) 60 false false true
        ("delete".toList)
        ⟨0, ⟨[], []⟩, true, true, false, "/mnt/s".toList, none, none,
          true⟩).exit = RunExit.mountError :=
  ⟨⟨by decide, by decide⟩,
    ((C2_mount_scope ("smb://10.0.0.5/data".toList) 60 false false true
      ("delete".toList)
      ⟨0, ⟨[], []⟩, true, true, true, "/mnt/s".toList, none, none, true⟩
      (by decide) (by decide)).1 rfl).1,
    ((C2_mount_scope ("smb://10.0.0.5/data".toList) 60 false false true
      ("delete".toList)
      ⟨0, ⟨[], []⟩, true, true, false, "/mnt/s".toList, none, none, true⟩
      (by decide) (by decide)).2 rfl).1⟩

/-- C5: a dry-run prints each candidate with its age and terminates
without deleting anything, even when force is also set (`force` is
universally quantified here): the filesystem — hence the on-disk file and
directory counts — is unchanged on every dry-run path, and no deletion
event is ever emitted. -/
theorem C5_dry_run_no_op (d : Str) (days : ℚ) (fo ded : Bool) (skip : Str)
    (env : Env) :
    (clean d days true fo ded skip env).fs = env.fs
    ∧ (clean d days true fo ded skip env).fs.files.length =
        env.fs.files.length
    ∧ (clean d days true fo ded skip env).fs.dirs.length = env.fs.dirs.length
    ∧ (∀ e ∈ (clean d days true fo ded skip env).events,
        isDeletionEvent e = false)
    ∧ (preOf smbPre d = false → env.localIsDir = true → env.scanErr = none →
        iter_old_files env.fs.files env.now days skip ≠ [] →
        (clean d days true fo ded skip env).exit = RunExit.exited 0 ∧
        (clean d days true fo ded skip env).events =
          Event.scan :: (iter_old_files env.fs.files env.now days skip).map
            fun fa => Event.wouldDelete fa.1.path fa.2) := by
  have hfs : (clean d days true fo ded skip env).fs = env.fs := by
    by_cases hsmb : preOf smbPre d = true
    · simp only [clean, hsmb, if_true]
      rcases hres : resolveSmb d with ⟨s, sh, u⟩ | _ | _
      · simp only [hres]
        by_cases hm : env.mountOk <;> simp [hm, cleanBody_dry_fs]
      · simp [hres]
      · simp [hres]
    · by_cases hdir : env.localIsDir <;> by_cases hex : env.localExists <;>
        simp [clean, hsmb, hdir, hex, cleanBody_dry_fs]
  have hev : ∀ e ∈ (clean d days true fo ded skip env).events,
      isDeletionEvent e = false := by
    intro e he
    have hbody : ∀ rt : Str,
        e ∈ (cleanBody rt days true fo ded skip env).events →
          isDeletionEvent e = false :=
      fun rt h => cleanBody_dry_noDeletion rt days fo ded skip env e h
    simp only [clean] at he
    repeat any_goals split at he
    all_goals
      try simp only [List.mem_append, List.mem_cons, List.mem_singleton,
        List.not_mem_nil, or_false, false_or] at he
    all_goals try casesm* _ ∨ _, _ ∧ _, Exists _
    all_goals try subst_vars
    all_goals
      first
        | exact hbody _ (by assumption)
        | simp_all [isDeletionEvent]
  refine ⟨hfs, by rw [hfs], by rw [hfs], hev, ?_⟩
  intro h1 h2 h3 h4
  constructor <;>
    simp [clean, h1, h2, cleanBody_dry_run_eq d days fo ded skip env h3 h4]

attribute [local semireducible] Rat.sub Rat.add

theorem C5_dry_run_no_op_witness :
    (preOf smbPre ("/r".toList) = false
      ∧ (Env.mk 100 ⟨[⟨"/r/a".toList, 0, true⟩], [⟨"/r/sub".toList, true⟩]⟩
          true true false [] none none true).localIsDir = true
      ∧ (Env.mk 100 ⟨[⟨"/r/a".toList, 0, true⟩], [⟨"/r/sub".toList, true⟩]⟩
          true true false [] none none true).scanErr = none
      ∧ iter_old_files [⟨"/r/a".toList, 0, true⟩] 100 60 ("delete".toList) ≠ [])
    ∧ ((clean ("/r".toList) 60 true true true ("delete".toList)
          (Env.mk 100 ⟨[⟨"/r/a".toList, 0, true⟩], [⟨"/r/sub".toList, true⟩]⟩
            true true false [] none none true)).exit = RunExit.exited 0
      ∧ (clean ("/r".toList) 60 true true true ("delete".toList)
          (Env.mk 100 ⟨[⟨"/r/a".toList, 0, true⟩], [⟨"/r/sub".toList, true⟩]⟩
            true true false [] none none true)).events =
          Event.scan :: (iter_old_files [⟨"/r/a".toList, 0, true⟩] 100 60
            ("delete".toList)).map fun fa => Event.wouldDelete fa.1.path fa.2) :=
  ⟨⟨by decide, rfl, rfl, by decide⟩,
    (C5_dry_run_no_op ("/r".toList) 60 true true ("delete".toList)
      (Env.mk 100 ⟨[⟨"/r/a".toList, 0, true⟩], [⟨"/r/sub".toList, true⟩]⟩
        true true false [] none none true)).2.2.2.2
      (by decide) rfl rfl (by decide)⟩

/-- C6: with neither dry-run nor force set and a non-empty candidate list,
the run shows the interactive confirmation naming the candidate count, and
answering "no" aborts the entire run with the filesystem untouched. -/
theorem C6_interactive_confirmation (d : Str) (days : ℚ) (ded : Bool)
    (skip : Str) (env : Env)
    (hloc : preOf smbPre d = false) (hdir : env.localIsDir = true)
    (hscan : env.scanErr = none)
    (hne : iter_old_files env.fs.files env.now days skip ≠ []) :
    Event.prompt (iter_old_files env.fs.files env.now days skip).length ∈
      (clean d days false false ded skip env).events
    ∧ (env.confirmYes = false →
        clean d days false false ded skip env =
          ⟨.aborted, env.fs,
            [Event.scan,
              Event.prompt
                (iter_old_files env.fs.files env.now days skip).length]⟩) := by
  constructor
  · by_cases hcy : env.confirmYes
    · by_cases hded : ded
      · rcases hr : env.reapErr with _ | er <;>
          simp [clean, hloc, hdir, cleanBody, hscan, hne, hcy, hded, hr, report]
      · simp [clean, hloc, hdir, cleanBody, hscan, hne, hcy, hded, report]
    · simp [clean, hloc, hdir, cleanBody, hscan, hne, hcy]
  · intro hcy
    simp [clean, hloc, hdir, cleanBody, hscan, hne, hcy]

theorem C6_interactive_confirmation_witness :
    (preOf smbPre ("/r".toList) = false
      ∧ (Env.mk 100 ⟨[⟨"/r/a".toList, 0, true⟩], []⟩
          true true false [] none none false).localIsDir = true
      ∧ (Env.mk 100 ⟨[⟨"/r/a".toList, 0, true⟩], []⟩
          true true false [] none none false).scanErr = none
      ∧ iter_old_files [⟨"/r/a".toList, 0, true⟩] 100 60 ("delete".toList) ≠ []
      ∧ (Env.mk 100 ⟨[⟨"/r/a".toList, 0, true⟩], []⟩
          true true false [] none none false).confirmYes = false)
    ∧ clean ("/r".toList) 60 false false true ("delete".toList)
        (Env.mk 100 ⟨[⟨"/r/a".toList, 0, true⟩], []⟩
          true true false [] none none false) =
      ⟨.aborted, FS.mk [⟨"/r/a".toList, 0, true⟩] [],
        [Event.scan,
          Event.prompt (iter_old_files [⟨"/r/a".toList, 0, true⟩] 100 60
            ("delete".toList)).length]⟩ :=
  ⟨⟨by decide, rfl, rfl, by decide, rfl⟩,
    (C6_interactive_confirmation ("/r".toList) 60 true ("delete".toList)
      (Env.mk 100 ⟨[⟨"/r/a".toList, 0, true⟩], []⟩
        true true false [] none none false)
      (by decide) rfl rfl (by decide)).2 rfl⟩

/-- C1 (code bug): run on a local directory with force set and two
confirmed candidates, the first of which fails to unlink and the second of
which succeeds.  Because `count = 0` and `errs = 0` execute at the top of
every iteration of the delete loop (cli.py lines 143–144), the summary and
exit code reflect only the last candidate: the run emits "Deleted 1
files", emits no failed-count line, and exits 0 even though one file
failed to delete — and no deleted/failed directory counts are emitted at
all.  This contradicts the claimed totals-across-all-candidates report and
the exit-1-on-any-failure policy. -/
theorem C1_summary_reflects_last_candidate_only :
    (clean ("/data".toList) 60 false true true ("delete".toList)
        (Env.mk 100
          ⟨[⟨"/data/a".toList, 0, false⟩, ⟨"/data/b".toList, 0, true⟩], []⟩
          true true false [] none none true)).exit = RunExit.exited 0
    ∧ Event.deleteFailed ("/data/a".toList) ∈
        (clean ("/data".toList) 60 false true true ("delete".toList)
          (Env.mk 100
            ⟨[⟨"/data/a".toList, 0, false⟩, ⟨"/data/b".toList, 0, true⟩], []⟩
            true true false [] none none true)).events
    ∧ Event.summaryDeleted 1 ∈
        (clean ("/data".toList) 60 false true true ("delete".toList)
          (Env.mk 100
            ⟨[⟨"/data/a".toList, 0, false⟩, ⟨"/data/b".toList, 0, true⟩], []⟩
            true true false [] none none true)).events
    ∧ Event.summaryFailed 1 ∉
        (clean ("/data".toList) 60 false true true ("delete".toList)
          (Env.mk 100
            ⟨[⟨"/data/a".toList, 0, false⟩, ⟨"/data/b".toList, 0, true⟩], []⟩
            true true false [] none none true)).events := by decide

theorem try_clean_eq (dir : Str) (days : ℚ) (dr fo ded : Bool) (skip : Str)
    (env : Env) :
    try_clean dir days dr fo ded skip env =
      if (clean dir days dr fo ded skip env).exit = RunExit.exited 0
      then DispatchOutcome.silent else DispatchOutcome.reported dir := by
  unfold try_clean
  rcases h : (clean dir days dr fo ded skip env).exit with n | _ | _ | _ | _ | e
  · cases n with
    | zero => simp
    | succ m => simp
  all_goals simp

theorem clean_many_targets_map (manifest : List (Str × Option Str)) :
    clean_many_targets manifest = (manifest.filterMap Prod.snd).map
      fun ip => "smb://".toList ++ ip ++ "/data".toList := by
  induction manifest with
  | nil => rfl
  | cons e rest ih =>
    simp only [clean_many_targets] at ih ⊢
    cases he : e.2 <;> simp [List.filterMap_cons, he] <;> simpa using ih

/-- C7 (counterexample): a fleet run over the single-station manifest
`{"lab1": "10.0.0.5"}` whose target exits cleanly via the zero-exit-code
termination signal is caught but swallowed silently — it is not reported
at all; and when the same target fails (mount error), it is reported with
the target address `smb://10.0.0.5/data` — the station name `lab1` is
discarded by the dispatcher and never appears.  This refutes the claim
that every such error is reported by station name. -/
theorem C7_error_reporting_counterexample :
    clean_many [("lab1".toList, some ("10.0.0.5".toList))] false
      (fun _ => Env.mk 0 ⟨[], []⟩ true true true ("/mnt/x".toList) none none
        true) = [DispatchOutcome.silent]
    ∧ (clean ("smb://10.0.0.5/data".toList) 60 false false true
        ("delete".toList)
        (Env.mk 0 ⟨[], []⟩ true true true ("/mnt/x".toList) none none
          true)).exit = RunExit.exited 0
    ∧ clean_many [("lab1".toList, some ("10.0.0.5".toList))] false
      (fun _ => Env.mk 0 ⟨[], []⟩ true true false ("/mnt/x".toList) none none
        true) = [DispatchOutcome.reported ("smb://10.0.0.5/data".toList)] := by
  decide

/-- C7 (amended): every exception raised by one target's run — all of the
run's terminations, including the early-termination signal — is caught at
the dispatch boundary and never propagates to sibling runs or the
dispatcher; a clean-exit signal (exit code 0) is swallowed silently, and
every other outcome is reported with the target's address string (the
manifest's station names are discarded); null-address entries are skipped,
one dispatch per non-null entry. -/
theorem C7_dispatch_isolation :
    (∀ (manifest : List (Str × Option Str)) (force : Bool)
        (envs : Str → Env),
      (clean_many manifest force envs).length =
        (manifest.filterMap Prod.snd).length
      ∧ ∀ o ∈ clean_many manifest force envs,
          o ≠ DispatchOutcome.propagated)
    ∧ (∀ (dir : Str) (days : ℚ) (dr fo ded : Bool) (skip : Str) (env : Env),
      try_clean dir days dr fo ded skip env ≠ DispatchOutcome.propagated
      ∧ (try_clean dir days dr fo ded skip env = DispatchOutcome.silent ↔
          (clean dir days dr fo ded skip env).exit = RunExit.exited 0)
      ∧ ∀ t, try_clean dir days dr fo ded skip env =
          DispatchOutcome.reported t → t = dir) := by
  constructor
  · intro manifest force envs
    constructor
    · simp [clean_many, clean_many_targets_map]
    · intro o ho
      simp only [clean_many, List.mem_map] at ho
      obtain ⟨t, _, hto⟩ := ho
      rw [try_clean_eq] at hto
      by_cases h : (clean t 60 false force true ("delete".toList)
          (envs t)).exit = RunExit.exited 0
      · rw [if_pos h] at hto
        rw [← hto]
        simp
      · rw [if_neg h] at hto
        rw [← hto]
        simp
  · intro dir days dr fo ded skip env
    rw [try_clean_eq]
    by_cases h : (clean dir days dr fo ded skip env).exit = RunExit.exited 0
    · rw [if_pos h]
      refine ⟨by simp, by simp [h], ?_⟩
      intro t ht
      simp at ht
    · rw [if_neg h]
      refine ⟨by simp, by simp [h], ?_⟩
      intro t ht
      injection ht with h2
      exact h2.symm

theorem C7_dispatch_isolation_witness :
    (DispatchOutcome.silent ∈
        clean_many [("lab1".toList, some ("10.0.0.5".toList))] false
          (fun _ => Env.mk 0 ⟨[], []⟩ true true true ("/mnt/x".toList) none
            none true)
      ∧ DispatchOutcome.silent ≠ DispatchOutcome.propagated)
    ∧ (try_clean ("smb://10.0.0.5/data".toList) 60 false false true
        ("delete".toList)
        (Env.mk 0 ⟨[], []⟩ true true false ("/mnt/x".toList) none none true) =
          DispatchOutcome.reported ("smb://10.0.0.5/data".toList)
      ∧ ("smb://10.0.0.5/data".toList : Str) = ("smb://10.0.0.5/data".toList : Str)) :=
  ⟨⟨by decide,
      (C7_dispatch_isolation.1 [("lab1".toList, some ("10.0.0.5".toList))]
        false
        (fun _ => Env.mk 0 ⟨[], []⟩ true true true ("/mnt/x".toList) none
          none true)).2 DispatchOutcome.silent (by decide)⟩,
    ⟨by decide,
      (C7_dispatch_isolation.2 ("smb://10.0.0.5/data".toList) 60 false false
        true ("delete".toList)
        (Env.mk 0 ⟨[], []⟩ true true false ("/mnt/x".toList) none none
          true)).2.2 ("smb://10.0.0.5/data".toList) (by decide)⟩⟩

end Imectools
